import Mathlib

/-!
Verification of the report-conversion pipeline (HTML report → paginated PDF
with auto-numbered table of contents).

The development shallowly embeds the core functions of the repository:

* `find_page_number` — the Title Locator: scans the preliminary PDF's text,
  page by page from physical page 3 onwards, and maps page numbers to the
  indices of TOC titles matched on that page.
* `mergePDFs` — the PDF Assembler: merges the cover render and the body
  render into the final document.
* `updatePageCount` / `updateTableOfContent` — the DOM mutation stage of the
  pipeline (total-page-count field, TOC page-number injection).
* the two HTTP handlers of the visualiser server.

Text is modelled as `List Char`; a parsed PDF (as seen through the text
reader) is a list of pages, each page an ordered list of text items.
-/

namespace ReportConversion

/-- Text runs, titles and accumulators are character lists. -/
abbrev Str := List Char

/-- Model of the JavaScript `str.replace("\n", "")`: a string-pattern
`replace` substitutes only the FIRST occurrence, so exactly one embedded
newline (the first) is removed from each text item. -/
def removeFirstNewline : Str → Str
  | [] => []
  | c :: cs => if c = '\n' then cs else c :: removeFirstNewline cs

/-- The mutable state of the scan in `find_page_number`:
`scrap` is the rolling text accumulator (`scrapText`), `found` is the
`foundTitles` list of titles recorded as seen, `pages` is the
`titlesPages` object, kept as an association list from page number to the
ordered list of title indices pushed for that page (the object's integer
keys enumerate in ascending order, which coincides with insertion order
here since pages are scanned in increasing order). -/
structure ScanState where
  scrap : Str
  found : List Str
  pages : List (Nat × List Nat)
deriving DecidableEq

/-- Model of `if (!titlesPages[pageNb]) titlesPages[pageNb] = [];
titlesPages[pageNb].push(index)`: append `idx` to the list stored under
key `page`, creating the key (at the end) when absent. -/
def pushIndex : List (Nat × List Nat) → Nat → Nat → List (Nat × List Nat)
  | [], page, idx => [(page, [idx])]
  | (q, l) :: rest, page, idx =>
    if q = page then (q, l ++ [idx]) :: rest
    else (q, l) :: pushIndex rest page idx

/-- One iteration of the `table_of_content.forEach((title, index) => ...)`
callback: if the accumulator contains the title, either record the title as
seen (first containment while `extrapages > 0`) or push the title's index
for the current page; in both cases reset the accumulator. -/
def checkTitle (extrapages pageNb : Nat) (s : ScanState) (idx : Nat) (title : Str) :
    ScanState :=
  if title <:+: s.scrap then
    if title ∉ s.found ∧ 0 < extrapages then
      { scrap := [], found := s.found ++ [title], pages := s.pages }
    else
      { scrap := [], found := s.found, pages := pushIndex s.pages pageNb idx }
  else s

/-- The whole `forEach` pass over the TOC titles (in source order, with
their indices). -/
def checkTitles (extrapages pageNb : Nat) (toc : List Str) (s : ScanState) : ScanState :=
  toc.enum.foldl (fun st p => checkTitle extrapages pageNb st p.1 p.2) s

/-- One iteration of the inner item loop: append the item's text (first
newline removed) to the accumulator, then run the title checks. -/
def processItem (extrapages pageNb : Nat) (toc : List Str) (s : ScanState) (item : Str) :
    ScanState :=
  checkTitles extrapages pageNb toc { s with scrap := s.scrap ++ removeFirstNewline item }

/-- One iteration of the page loop: the accumulator starts empty on each
page (`let scrapText = ""`), while `found` and `pages` persist. -/
def processPage (extrapages : Nat) (toc : List Str)
    (acc : List Str × List (Nat × List Nat)) (pageNb : Nat) (items : List Str) :
    List Str × List (Nat × List Nat) :=
  let s := items.foldl (processItem extrapages pageNb toc) ⟨[], acc.1, acc.2⟩
  (s.found, s.pages)

/-- The full scan, returning both persistent components. The page loop runs
`for (let pageNb = 3; pageNb <= pdf.numPages; pageNb++)`: pages are the
entries of `pdf` (page `n` at position `n - 1`), so the loop visits
`pdf.enum.drop 2` with `pageNb = index + 1`. -/
def findRun (pdf : List (List Str)) (toc : List Str) (extrapages : Nat) :
    List Str × List (Nat × List Nat) :=
  (pdf.enum.drop 2).foldl (fun acc p => processPage extrapages toc acc (p.1 + 1) p.2)
    ([], [])

/-- Model of `find_page_number(pdf, table_of_content, extrapages)`: returns the
`titlesPages` mapping. -/
def find_page_number (pdf : List (List Str)) (toc : List Str) (extrapages : Nat) :
    List (Nat × List Nat) :=
  (findRun pdf toc extrapages).2

/-- The concatenated text of one page's items, each with its first embedded
newline removed — the text against which titles can ever be matched on that
page. -/
def pageText : List Str → Str
  | [] => []
  | it :: rest => removeFirstNewline it ++ pageText rest

/-- The processed text of physical page `p` (1-based) of a parsed PDF. -/
def pageTextOf (pdf : List (List Str)) (p : Nat) : Str :=
  pageText (pdf.getD (p - 1) [])

/-- Scenario A / B TOC title list: `["Introduction", "1. Scope", "2. Method"]`. -/
def scenarioToc : List Str :=
  [String.toList "Introduction", String.toList "1. Scope", String.toList "2. Method"]

/-- Scenario A parsed PDF: cover fits one page, "Introduction" first appears
on physical page 3 and "1. Scope" on page 4; "2. Method" never appears. -/
def scenarioA_pdf : List (List Str) :=
  [ [String.toList "Cover page"],
    [String.toList "Sommaire listing"],
    [String.toList "Introduction", String.toList " body text"],
    [String.toList "1. Scope", String.toList " more body text"] ]

/-- Scenario B parsed PDF: the cover overflows (`extrapages = 1`), so the
scan's first visited page (page 3) spuriously contains the "Introduction"
text before its real occurrence on page 4. -/
def scenarioB_pdf : List (List Str) :=
  [ [String.toList "Cover page"],
    [String.toList "Cover overflow"],
    [String.toList "Introduction appearing spuriously"],
    [String.toList "Introduction", String.toList " real body text"] ]

/-- Input for the C1 counterexample: the same title text occurs on two
distinct scanned pages. -/
def doubleMatch_pdf : List (List Str) :=
  [ [String.toList "Cover page"],
    [String.toList "Sommaire listing"],
    [String.toList "Introduction"],
    [String.toList "Introduction"] ]

/-! ## PDF Assembler (`mergePDFs`)

A loaded PDF document is a list of pages; a page is identified by its byte
content, modelled as an opaque `Nat` token. A buffer is `Option`-loadable:
`none` stands for a buffer that `PDFDocument.load` would reject.
-/

/-- A page of a loaded document, identified by its (byte) content. -/
abbrev PdfPage := Nat

/-- A loaded `pdf-lib` document: its ordered list of pages. -/
abbrev PdfDoc := List PdfPage

/-- Errors raised inside the merge step. -/
inductive MergeError where
  /-- `"mergePDFs requires exactly two PDF buffers."` -/
  | countMismatch
  /-- `PDFDocument.load` rejected a buffer. -/
  | loadFailure
  /-- a page operation was given an out-of-range index. -/
  | pageOutOfRange
deriving DecidableEq

/-- Model of `PDFDocument.load`: succeeds exactly on loadable buffers. -/
def loadPDF (buffer : Option PdfDoc) : Except MergeError PdfDoc :=
  match buffer with
  | some doc => .ok doc
  | none => .error .loadFailure

/-- Model of `doc.removePage(idx)`: removes the page at `idx`, throwing when the
index is out of range. -/
def removePage (doc : PdfDoc) (idx : Nat) : Except MergeError PdfDoc :=
  if idx < doc.length then .ok (doc.eraseIdx idx) else .error .pageOutOfRange

/-- The `for (let i = 0; i < extrapages; i++) firstPDFDoc.removePage(1)`
loop: removes the page at index 1, `extrapages` times. -/
def removeExtraPages : PdfDoc → Nat → Except MergeError PdfDoc
  | doc, 0 => .ok doc
  | doc, Nat.succ n =>
    match removePage doc 1 with
    | .ok d => removeExtraPages d n
    | .error e => .error e

/-- Model of `copyPages(doc, [idx])` destructured to its only element: fetch the page
at `idx`, throwing when out of range. -/
def getPage (doc : PdfDoc) (idx : Nat) : Except MergeError PdfPage :=
  match doc[idx]? with
  | some pg => .ok pg
  | none => .error .pageOutOfRange

/-- Model of `mergePDFs(pdfBuffers, extrapages)`: checks the buffer count, loads the
cover and body documents, removes page index 0 of the body, removes
`extrapages` pages at index 1 of the cover, copies page 0 of the (trimmed)
cover and inserts it at index 0 of the body, then saves the body. -/
def mergePDFs (pdfBuffers : List (Option PdfDoc)) (extrapages : Nat) :
    Except MergeError PdfDoc :=
  match pdfBuffers with
  | [b0, b1] =>
    match loadPDF b0 with
    | .error e => .error e
    | .ok firstPDFDoc =>
      match loadPDF b1 with
      | .error e => .error e
      | .ok restPDFDoc =>
        match removePage restPDFDoc 0 with
        | .error e => .error e
        | .ok rest1 =>
          match removeExtraPages firstPDFDoc extrapages with
          | .error e => .error e
          | .ok first1 =>
            match getPage first1 0 with
            | .error e => .error e
            | .ok coverPage => .ok (coverPage :: rest1)
  | _ => .error .countMismatch

/-! ## DOM stage (`updatePageCount`, `updateTableOfContent`)

The loaded report document is modelled by the two DOM regions the stage
touches: the optional `#table-of-content` container (a list of entries,
each optionally holding a link) and the optional `.totalPages` element
(holding the displayed count). Other throw paths of the in-page scripts
(absent links) are modelled as `evalFailed` errors, matching the
`TypeError` a null dereference raises.
-/

/-- One child of the `#table-of-content` container: the link (`<a>`, also
assumed to be `children[0]`) with its text, and the page numbers appended
so far. `link = none` models an entry without a link element. -/
structure TocEntry where
  link : Option Str
  pageNumbers : List Nat
deriving DecidableEq

/-- The two DOM regions read or mutated by the TOC-update stage. -/
structure Dom where
  tableOfContent : Option (List TocEntry)
  totalPages : Option Nat
deriving DecidableEq

/-- Errors escaping the in-page scripts (rejected `$eval`, null
dereference in an evaluated callback). -/
inductive DomError where
  | evalFailed
deriving DecidableEq

/-- Model of `updatePageCount`: `page.$eval('.totalPages', ...)` setting the count
rejects when no element matches the selector; otherwise it overwrites the
element's text with the count. -/
def updatePageCount (dom : Dom) (count : Nat) : Except DomError Dom :=
  match dom.totalPages with
  | none => .error .evalFailed
  | some _ => .ok { dom with totalPages := some count }

/-- Title extraction (`Array.from(toc.children)` pushing
`children[0].textContent`): throws on an entry without a link. -/
def extractTitles : List TocEntry → Except DomError (List Str)
  | [] => .ok []
  | e :: rest =>
    match e.link with
    | none => .error .evalFailed
    | some l =>
      match extractTitles rest with
      | .ok ts => .ok (l :: ts)
      | .error err => .error err

/-- Injection for one title index on one page: `toc.children[childIndex]`
out of range is skipped (`if (currentChild)`), an entry without a link
throws (`link.textContent` on `null`), otherwise the page number is
appended to the entry's link. -/
def injectAt (entries : List TocEntry) (idx page : Nat) :
    Except DomError (List TocEntry) :=
  match entries, idx with
  | [], _ => .ok []
  | e :: rest, 0 =>
    match e.link with
    | none => .error .evalFailed
    | some _ => .ok ({ e with pageNumbers := e.pageNumbers ++ [page] } :: rest)
  | e :: rest, Nat.succ n =>
    match injectAt rest n page with
    | .ok rest2 => .ok (e :: rest2)
    | .error err => .error err

/-- Model of `childs.forEach(childIndex => ...)` for one page key. -/
def injectList : List TocEntry → Nat → List Nat → Except DomError (List TocEntry)
  | es, _, [] => .ok es
  | es, page, idx :: rest =>
    match injectAt es idx page with
    | .ok es2 => injectList es2 page rest
    | .error err => .error err

/-- Model of the `for (const [page, childs] of Object.entries(titlesPages))` loop: the object's
integer keys enumerate in ascending order, which is the construction order
of the association list. -/
def injectAll : List TocEntry → List (Nat × List Nat) → Except DomError (List TocEntry)
  | es, [] => .ok es
  | es, (page, idxs) :: rest =>
    match injectList es page idxs with
    | .ok es2 => injectAll es2 rest
    | .error err => .error err

/-- Model of `updateTableOfContent(page, pdf, extrapages)`: when the
`#table-of-content` container is missing, log and return without mutating
anything; otherwise extract the titles, locate them with
`find_page_number`, and inject the page numbers into the DOM. -/
def updateTableOfContent (dom : Dom) (pdf : List (List Str)) (extrapages : Nat) :
    Except DomError Dom :=
  match dom.tableOfContent with
  | none => .ok dom
  | some entries =>
    match extractTitles entries with
    | .error err => .error err
    | .ok titles =>
      match injectAll entries (find_page_number pdf titles extrapages) with
      | .error err => .error err
      | .ok entries2 => .ok { dom with tableOfContent := some entries2 }

/-- The TOC-update slice of `generatePDF`:
`await updatePageCount(page1, pdf.numPages); await updateTableOfContent(page1, pdf, extrapages)`
inside a `try` whose handler rethrows, so any error of either call
propagates and aborts the pipeline. -/
def tocUpdateStage (dom : Dom) (pdf : List (List Str)) (extrapages : Nat) :
    Except DomError Dom :=
  match updatePageCount dom pdf.length with
  | .error err => .error err
  | .ok dom1 => updateTableOfContent dom1 pdf extrapages

/-! ## HTTP handlers (`app.js`)

Each handler first tests the request body for JavaScript falsiness
(`if (!htmlPage) return res.status(400)...`); a falsy body is modelled as
`none`. The rendering collaborators `generateHTML` / `generatePDF` are
abstract fallible functions; the handler result records the HTTP status
together with which collaborators were invoked.
-/

/-- Outcome of `POST /pdf_visualiser`: HTTP status, whether `generateHTML`
was invoked, whether `generatePDF` was invoked. -/
def pdfVisualiserHandler (body : Option String)
    (genHTML : String → Except Unit String) (genPDF : String → Except Unit String) :
    Nat × Bool × Bool :=
  match body with
  | none => (400, false, false)
  | some htmlPage =>
    match genHTML htmlPage with
    | .error _ => (500, true, false)
    | .ok page =>
      match genPDF page with
      | .error _ => (500, true, true)
      | .ok _ => (200, true, true)

/-- Outcome of `POST /html_visualiser`: HTTP status and whether
`generateHTML` was invoked. -/
def htmlVisualiserHandler (body : Option String)
    (genHTML : String → Except Unit String) : Nat × Bool :=
  match body with
  | none => (400, false)
  | some htmlPage =>
    match genHTML htmlPage with
    | .error _ => (500, true)
    | .ok _ => (200, true)

/-- Soundness predicate for the Title Locator's output: every index pushed
for a page names an existing TOC title whose text occurs in that page's
processed text. -/
def SoundMap (pdf : List (List Str)) (toc : List Str) (m : List (Nat × List Nat)) : Prop :=
  ∀ p l, (p, l) ∈ m → ∀ idx, idx ∈ l → ∃ t, toc[idx]? = some t ∧ t <:+: pageTextOf pdf p

/-! ## Lemmas about the PDF Assembler -/

/-- Removing the page at index 1, `n` times, drops pages 1 through `n`. -/
theorem removeExtraPages_eq (c0 : PdfPage) :
    ∀ (n : Nat) (ct : PdfDoc), n ≤ ct.length →
      removeExtraPages (c0 :: ct) n = .ok (c0 :: ct.drop n) := by
  intro n
  induction n with
  | zero => intro ct _; simp [removeExtraPages]
  | succ n ih =>
    intro ct h
    match ct with
    | b :: t =>
      have h2 : n ≤ t.length := by simpa using Nat.lt_succ_iff.mp (Nat.lt_succ_of_le h)
      have hrm : removePage (c0 :: b :: t) 1 = .ok (c0 :: t) := by
        simp [removePage, List.eraseIdx]
      simp only [removeExtraPages, hrm]
      simpa using ih t h2

/-- Shape of a successful merge: the head of the (possibly trimmed) cover,
followed by every body page except the body's page 0. -/
theorem mergePDFs_ok_eq (c0 : PdfPage) (ct : PdfDoc) (b0 : PdfPage) (bt : PdfDoc)
    (ep : Nat) (hc : ep ≤ ct.length) :
    mergePDFs [some (c0 :: ct), some (b0 :: bt)] ep = .ok (c0 :: bt) := by
  have h1 : removePage (b0 :: bt) 0 = .ok bt := by
    simp [removePage, List.eraseIdx]
  have h2 := removeExtraPages_eq c0 ep ct hc
  simp [mergePDFs, loadPDF, h1, h2, getPage]

/-- Lemma: `removePage` never raises the count-mismatch error. -/
theorem removePage_ne_countMismatch (doc : PdfDoc) (idx : Nat) :
    removePage doc idx ≠ .error .countMismatch := by
  unfold removePage
  split <;> simp

/-- Lemma: `removeExtraPages` never raises the count-mismatch error. -/
theorem removeExtraPages_ne_countMismatch :
    ∀ (n : Nat) (doc : PdfDoc), removeExtraPages doc n ≠ .error .countMismatch := by
  intro n
  induction n with
  | zero => intro doc; simp [removeExtraPages]
  | succ n ih =>
    intro doc
    simp only [removeExtraPages]
    cases h : removePage doc 1 with
    | ok d => exact ih d
    | error e =>
      have := removePage_ne_countMismatch doc 1
      rw [h] at this
      simpa using this

/-- Lemma: `getPage` never raises the count-mismatch error. -/
theorem getPage_ne_countMismatch (doc : PdfDoc) (idx : Nat) :
    getPage doc idx ≠ .error .countMismatch := by
  unfold getPage
  split <;> simp

/-- C2 counterexample: with cover `[10]` and body `[20, 30]`, the merge
keeps the body's index-1 page (content `30`) and drops the body's index-0
page (content `20`) — the opposite of the claimed "removes the page at
physical index 1, retains every other page". -/
theorem mergePDFs_body_index_counterexample :
    mergePDFs [some [10], some [20, 30]] 0 = .ok [10, 30] ∧
    (20 : PdfPage) ∉ [(10 : PdfPage), 30] ∧ (30 : PdfPage) ∈ [(10 : PdfPage), 30] :=
  ⟨rfl, by decide, by decide⟩

/-- C2 (amended): `mergePDFs` removes exactly one artifact page from the
body document, namely the page at physical index 0 (0-based); every other
body page is retained, in order, after the inserted cover page. -/
theorem mergePDFs_removes_body_page_zero (cover body : PdfDoc) (ep : Nat)
    (hc : ep < cover.length) (hb : body ≠ []) :
    ∃ c0, cover.head? = some c0 ∧
      mergePDFs [some cover, some body] ep = .ok (c0 :: body.tail) := by
  match cover, body, hb with
  | c0 :: ct, b0 :: bt, _ =>
    exact ⟨c0, rfl, mergePDFs_ok_eq c0 ct b0 bt ep (by simpa using Nat.lt_succ_iff.mp hc)⟩

/-- Witness for the amended C2 at cover `[10]`, body `[20, 30]`. -/
theorem mergePDFs_removes_body_page_zero_witness :
    ∃ c0, ([10] : PdfDoc).head? = some c0 ∧
      mergePDFs [some [10], some [20, 30]] 0 = .ok (c0 :: ([20, 30] : PdfDoc).tail) :=
  mergePDFs_removes_body_page_zero [10] [20, 30] 0 (by decide) (by decide)

/-- C3 counterexample: with cover `[10, 11]`, body `[20, 21, 22]` and
`extrapages = 1`, the merged document has 3 pages, but the claimed formula
`body − 1 (artifact) − extraTrimmed + 1 (cover)` predicts 2. -/
theorem mergePDFs_pageCount_counterexample :
    mergePDFs [some [10, 11], some [20, 21, 22]] 1 = .ok [10, 21, 22] ∧
    ([10, 21, 22] : PdfDoc).length ≠ ([20, 21, 22] : PdfDoc).length - 1 - 1 + 1 :=
  ⟨rfl, by decide⟩

/-- C3 (amended): the merged document's page count equals the body
document's page count (−1 for the removed artifact page, +1 for the
inserted cover page; the extra-page trimming touches only the cover
document, from which a single page is copied, so it does not change the
merged count), and the merged page 0 is content-equal to page 0 of the
cover document after trimming. -/
theorem mergePDFs_pageCount_cover_head (cover body : PdfDoc) (ep : Nat)
    (hc : ep < cover.length) (hb : body ≠ []) :
    ∃ trimmed out, removeExtraPages cover ep = .ok trimmed ∧
      mergePDFs [some cover, some body] ep = .ok out ∧
      out.length = body.length ∧ out.head? = trimmed.head? := by
  match cover, body, hb with
  | c0 :: ct, b0 :: bt, _ =>
    have hle : ep ≤ ct.length := by simpa using Nat.lt_succ_iff.mp hc
    exact ⟨c0 :: ct.drop ep, c0 :: bt, removeExtraPages_eq c0 ep ct hle,
      mergePDFs_ok_eq c0 ct b0 bt ep hle, by simp, rfl⟩

/-- Witness for the amended C3 at cover `[10, 11]`, body `[20, 21, 22]`,
`extrapages = 1`. -/
theorem mergePDFs_pageCount_cover_head_witness :
    ∃ trimmed out, removeExtraPages ([10, 11] : PdfDoc) 1 = .ok trimmed ∧
      mergePDFs [some [10, 11], some [20, 21, 22]] 1 = .ok out ∧
      out.length = ([20, 21, 22] : PdfDoc).length ∧ out.head? = trimmed.head? :=
  mergePDFs_pageCount_cover_head [10, 11] [20, 21, 22] 1 (by decide) (by decide)

/-- C6: a buffer array whose length is not exactly 2 fails with the
count-mismatch error before any load is attempted (the quantification
includes unloadable buffers, which would raise `loadFailure` if loading
were reached), and a two-buffer array never raises the count-mismatch
error. -/
theorem mergePDFs_count_mismatch :
    (∀ (bufs : List (Option PdfDoc)) (ep : Nat), bufs.length ≠ 2 →
      mergePDFs bufs ep = .error .countMismatch) ∧
    (∀ (b0 b1 : Option PdfDoc) (ep : Nat),
      mergePDFs [b0, b1] ep ≠ .error .countMismatch) := by
  constructor
  · intro bufs ep h
    match bufs with
    | [] => rfl
    | [_] => rfl
    | [_, _] => exact absurd rfl h
    | _ :: _ :: _ :: _ => rfl
  · intro b0 b1 ep
    cases b0 with
    | none => simp [mergePDFs, loadPDF]
    | some cover =>
      cases b1 with
      | none => simp [mergePDFs, loadPDF]
      | some body =>
        simp only [mergePDFs, loadPDF]
        split
        · next e heq =>
          have := removePage_ne_countMismatch body 0
          rw [heq] at this
          simpa using this
        · next rest1 heq1 =>
          split
          · next e heq2 =>
            have := removeExtraPages_ne_countMismatch ep cover
            rw [heq2] at this
            simpa using this
          · next first1 heq2 =>
            split
            · next e heq3 =>
              have := getPage_ne_countMismatch first1 0
              rw [heq3] at this
              simpa using this
            · next pg heq3 => simp

/-- Witness for C6: an empty buffer array (count 0 ≠ 2, unloadable content
irrelevant) raises the count-mismatch error; a two-buffer array of
unloadable buffers does not. -/
theorem mergePDFs_count_mismatch_witness :
    mergePDFs ([] : List (Option PdfDoc)) 0 = .error .countMismatch ∧
    mergePDFs [(none : Option PdfDoc), none] 0 ≠ .error .countMismatch :=
  ⟨mergePDFs_count_mismatch.1 [] 0 (by decide), mergePDFs_count_mismatch.2 none none 0⟩

/-! ## DOM stage and HTTP handler theorems -/

/-- C7: when the document has no `#table-of-content` container,
`updateTableOfContent` returns without an error and without mutating the
DOM, and the TOC-update slice of `generatePDF` still updates the
total-page-count field (`updatePageCount` runs first and does not depend
on the container), producing a document whose page count is filled in but
whose TOC carries no page numbers. -/
theorem updateTableOfContent_missing_container_nonfatal
    (dom : Dom) (pdf : List (List Str)) (ep : Nat) (h : dom.tableOfContent = none) :
    updateTableOfContent dom pdf ep = .ok dom ∧
    (∀ n, dom.totalPages = some n →
      tocUpdateStage dom pdf ep = .ok { dom with totalPages := some pdf.length }) := by
  constructor
  · simp [updateTableOfContent, h]
  · intro n hn
    have h1 : updatePageCount dom pdf.length = .ok { dom with totalPages := some pdf.length } := by
      simp [updatePageCount, hn]
    simp [tocUpdateStage, h1, updateTableOfContent, h]

/-- Witness for C7 on a document with a `.totalPages` element but no TOC
container. -/
theorem updateTableOfContent_missing_container_nonfatal_witness :
    updateTableOfContent ⟨none, some 7⟩ scenarioA_pdf 0 = .ok ⟨none, some 7⟩ ∧
    tocUpdateStage ⟨none, some 7⟩ scenarioA_pdf 0 = .ok ⟨none, some 4⟩ :=
  ⟨(updateTableOfContent_missing_container_nonfatal ⟨none, some 7⟩ scenarioA_pdf 0 rfl).1,
   (updateTableOfContent_missing_container_nonfatal ⟨none, some 7⟩ scenarioA_pdf 0 rfl).2 7 rfl⟩

/-- C9: absence of a `.totalPages` element is fatal, unlike absence of the
TOC container: `updatePageCount`'s `$eval` rejects, and the TOC-update
slice of `generatePDF` propagates that error (its `catch` rethrows), so
the pipeline aborts instead of degrading gracefully. -/
theorem updatePageCount_missing_totalPages_fatal
    (dom : Dom) (pdf : List (List Str)) (ep : Nat) (h : dom.totalPages = none) :
    updatePageCount dom pdf.length = .error .evalFailed ∧
    tocUpdateStage dom pdf ep = .error .evalFailed := by
  have h1 : updatePageCount dom pdf.length = .error .evalFailed := by
    simp [updatePageCount, h]
  exact ⟨h1, by simp [tocUpdateStage, h1]⟩

/-- Witness for C9 on a document that has a TOC container but no
`.totalPages` element. -/
theorem updatePageCount_missing_totalPages_fatal_witness :
    updatePageCount ⟨some [⟨some (String.toList "Introduction"), []⟩], none⟩
      scenarioA_pdf.length = .error .evalFailed ∧
    tocUpdateStage ⟨some [⟨some (String.toList "Introduction"), []⟩], none⟩
      scenarioA_pdf 0 = .error .evalFailed :=
  updatePageCount_missing_totalPages_fatal
    ⟨some [⟨some (String.toList "Introduction"), []⟩], none⟩ scenarioA_pdf 0 rfl

/-- C8: for both endpoints, a request whose body is empty/missing (a falsy
`req.body`) is answered with status 400, and neither `generateHTML` nor
`generatePDF` is invoked, whatever those collaborators would do. -/
theorem visualiser_handlers_empty_body_400 :
    (∀ (genHTML genPDF : String → Except Unit String),
      pdfVisualiserHandler none genHTML genPDF = (400, false, false)) ∧
    (∀ (genHTML : String → Except Unit String),
      htmlVisualiserHandler none genHTML = (400, false)) :=
  ⟨fun _ _ => rfl, fun _ => rfl⟩

/-- C10: `find_page_number` is deterministic: two runs on the same parsed
PDF text, title list and extra-pages count return equal maps. In this
embedding the scan is a pure fold over the page text, so the two runs are
definitionally equal — the code consults no state other than its inputs. -/
theorem find_page_number_deterministic (pdf : List (List Str)) (toc : List Str)
    (ep : Nat) :
    find_page_number pdf toc ep = find_page_number pdf toc ep := rfl

/-! ## The seen/suppression mechanism of the Title Locator -/

/-- With `extrapages = 0` one title check never touches the seen list. -/
theorem checkTitle_found_eq_zero (pageNb : Nat) (s : ScanState) (idx : Nat) (t : Str) :
    (checkTitle 0 pageNb s idx t).found = s.found := by
  unfold checkTitle
  split
  · split
    · next h => exact absurd h.2 (Nat.lt_irrefl 0)
    · rfl
  · rfl

/-- With `extrapages = 0` a whole title pass never touches the seen list. -/
theorem foldl_checkTitle_found_zero (pageNb : Nat) :
    ∀ (L : List (Nat × Str)) (s : ScanState),
      (L.foldl (fun st p => checkTitle 0 pageNb st p.1 p.2) s).found = s.found := by
  intro L
  induction L with
  | nil => intro s; rfl
  | cons pr rest ih =>
    intro s
    rw [List.foldl_cons, ih]
    exact checkTitle_found_eq_zero pageNb s pr.1 pr.2

/-- With `extrapages = 0` the item loop never touches the seen list. -/
theorem foldl_processItem_found_zero (pageNb : Nat) (toc : List Str) :
    ∀ (items : List Str) (s : ScanState),
      (items.foldl (processItem 0 pageNb toc) s).found = s.found := by
  intro items
  induction items with
  | nil => intro s; rfl
  | cons it rest ih =>
    intro s
    rw [List.foldl_cons, ih]
    exact foldl_checkTitle_found_zero pageNb toc.enum _

/-- With `extrapages = 0` one page scan never touches the seen list. -/
theorem processPage_found_zero (toc : List Str)
    (acc : List Str × List (Nat × List Nat)) (pageNb : Nat) (items : List Str) :
    (processPage 0 toc acc pageNb items).1 = acc.1 := by
  unfold processPage
  exact foldl_processItem_found_zero pageNb toc items ⟨[], acc.1, acc.2⟩

/-- With `extrapages = 0` the page loop never touches the seen list. -/
theorem foldl_processPage_found_zero (toc : List Str) :
    ∀ (L : List (Nat × List Str)) (acc : List Str × List (Nat × List Nat)),
      ((L.foldl (fun acc p => processPage 0 toc acc (p.1 + 1) p.2) acc)).1 = acc.1 := by
  intro L
  induction L with
  | nil => intro acc; rfl
  | cons pr rest ih =>
    intro acc
    rw [List.foldl_cons, ih]
    exact processPage_found_zero toc acc (pr.1 + 1) pr.2

/-- C5: with `extrapages = 0` the seen mechanism never suppresses a title
(the `foundTitles` list stays empty over the whole run, and every match is
pushed to the current page immediately), and Scenario A — titles
`["Introduction", "1. Scope", "2. Method"]`, "Introduction" first on page
3, "1. Scope" on page 4, entry 2 never matching — yields exactly the map
`{3: [0], 4: [1]}` with index 2 absent. -/
theorem find_page_number_no_suppression_zero_extrapages :
    (∀ (pdf : List (List Str)) (toc : List Str), (findRun pdf toc 0).1 = []) ∧
    (∀ (pageNb : Nat) (s : ScanState) (idx : Nat) (t : Str), t <:+: s.scrap →
      checkTitle 0 pageNb s idx t = ⟨[], s.found, pushIndex s.pages pageNb idx⟩) ∧
    find_page_number scenarioA_pdf scenarioToc 0 = [(3, [0]), (4, [1])] := by
  refine ⟨?_, ?_, by decide⟩
  · intro pdf toc
    unfold findRun
    exact foldl_processPage_found_zero toc (pdf.enum.drop 2) ([], [])
  · intro pageNb s idx t hmatch
    unfold checkTitle
    rw [if_pos hmatch, if_neg]
    intro hc
    exact absurd hc.2 (Nat.lt_irrefl 0)

/-- Witness for C5: the seen list of the Scenario A run is empty, and a
concrete match (`"Intro"` contained in the accumulator `"Introduction"`)
is assigned immediately. -/
theorem find_page_number_no_suppression_zero_extrapages_witness :
    (findRun scenarioA_pdf scenarioToc 0).1 = [] ∧
    checkTitle 0 3 ⟨String.toList "Introduction", [], []⟩ 0 (String.toList "Intro")
      = ⟨[], [], pushIndex [] 3 0⟩ :=
  ⟨find_page_number_no_suppression_zero_extrapages.1 scenarioA_pdf scenarioToc,
   find_page_number_no_suppression_zero_extrapages.2.1 3
     ⟨String.toList "Introduction", [], []⟩ 0 (String.toList "Intro") (by decide)⟩

/-- C4: with `extrapages > 0` the first textual match of a title not yet
recorded is suppressed — the title is appended to the seen list and no
page assignment is made — while a match of an already-seen title is
assigned to the current page; and in Scenario B (`extrapages = 1`,
"Introduction" appearing spuriously on the first scanned page 3 before
its real occurrence on page 4) the output maps "Introduction" only to
page 4 and not to the overflow page. -/
theorem find_page_number_extrapages_suppression :
    (∀ (ep pageNb : Nat) (s : ScanState) (idx : Nat) (t : Str),
      0 < ep → t <:+: s.scrap → t ∉ s.found →
      checkTitle ep pageNb s idx t = ⟨[], s.found ++ [t], s.pages⟩) ∧
    (∀ (ep pageNb : Nat) (s : ScanState) (idx : Nat) (t : Str),
      t <:+: s.scrap → t ∈ s.found →
      checkTitle ep pageNb s idx t = ⟨[], s.found, pushIndex s.pages pageNb idx⟩) ∧
    find_page_number scenarioB_pdf scenarioToc 1 = [(4, [0])] := by
  refine ⟨?_, ?_, by decide⟩
  · intro ep pageNb s idx t hep hmatch hnot
    unfold checkTitle
    rw [if_pos hmatch, if_pos ⟨hnot, hep⟩]
  · intro ep pageNb s idx t hmatch hmem
    unfold checkTitle
    rw [if_pos hmatch, if_neg]
    intro hc
    exact hc.1 hmem

/-- Witness for C4: a concrete first match is only recorded as seen, and
the same title's next match is pushed for the current page. -/
theorem find_page_number_extrapages_suppression_witness :
    checkTitle 1 3 ⟨String.toList "Introduction", [], []⟩ 0 (String.toList "Intro")
      = ⟨[], [String.toList "Intro"], []⟩ ∧
    checkTitle 1 4 ⟨String.toList "Introduction", [String.toList "Intro"], []⟩ 0
      (String.toList "Intro")
      = ⟨[], [String.toList "Intro"], pushIndex [] 4 0⟩ :=
  ⟨find_page_number_extrapages_suppression.1 1 3
      ⟨String.toList "Introduction", [], []⟩ 0 (String.toList "Intro")
      (by decide) (by decide) (by decide),
   find_page_number_extrapages_suppression.2.1 1 4
      ⟨String.toList "Introduction", [String.toList "Intro"], []⟩ 0
      (String.toList "Intro") (by decide) (by decide)⟩

/-! ## Soundness of the Title Locator's output map -/

/-- C1 counterexample: nothing marks a title as done once assigned, so a
title whose text occurs on two scanned pages is assigned on both — with
title list `["Introduction"]` and "Introduction" on pages 3 and 4, index 0
appears in the value lists of the two distinct page keys 3 and 4. -/
theorem find_page_number_two_pages_counterexample :
    (3, [0]) ∈ find_page_number doubleMatch_pdf [String.toList "Introduction"] 0 ∧
    (4, [0]) ∈ find_page_number doubleMatch_pdf [String.toList "Introduction"] 0 ∧
    (3 : Nat) ≠ 4 := by decide

/-- Concatenating a suffix of `T` after decomposing `full = T ++ rest`
gives an occurrence inside `full`. -/
theorem infix_of_suffix_of_append {s T rest full : Str} (h1 : s <:+ T)
    (h2 : T ++ rest = full) : s <:+: full := by
  obtain ⟨pre, rfl⟩ := h1
  exact ⟨pre, rest, by rw [← h2, List.append_assoc]⟩

/-- Lemma: `pushIndex` preserves soundness when the pushed index is justified. -/
theorem pushIndex_sound {pdf : List (List Str)} {toc : List Str} {p idx : Nat}
    (hidx : ∃ t, toc[idx]? = some t ∧ t <:+: pageTextOf pdf p) :
    ∀ (m : List (Nat × List Nat)), SoundMap pdf toc m →
      SoundMap pdf toc (pushIndex m p idx) := by
  intro m
  induction m with
  | nil =>
    intro _ q l hql j hj
    simp only [pushIndex, List.mem_singleton, Prod.mk.injEq] at hql
    obtain ⟨hq, hl⟩ := hql
    rw [hl] at hj
    simp only [List.mem_singleton] at hj
    rw [hq, hj]
    exact hidx
  | cons e rest ih =>
    intro hm q l hql j hj
    obtain ⟨q0, l0⟩ := e
    simp only [pushIndex] at hql
    by_cases hq : q0 = p
    · rw [if_pos hq] at hql
      rcases List.mem_cons.mp hql with h | h
      · simp only [Prod.mk.injEq] at h
        obtain ⟨hq1, hl1⟩ := h
        rw [hl1] at hj
        rcases List.mem_append.mp hj with hj2 | hj2
        · rw [hq1]
          exact hm q0 l0 (List.mem_cons_self _ _) j hj2
        · simp only [List.mem_singleton] at hj2
          rw [hq1, hq, hj2]
          exact hidx
      · exact hm q l (List.mem_cons_of_mem _ h) j hj
    · rw [if_neg hq] at hql
      rcases List.mem_cons.mp hql with h | h
      · simp only [Prod.mk.injEq] at h
        obtain ⟨hq1, hl1⟩ := h
        rw [hl1] at hj
        rw [hq1]
        exact hm q0 l0 (List.mem_cons_self _ _) j hj
      · have hm2 : SoundMap pdf toc rest :=
          fun q2 l2 h2 => hm q2 l2 (List.mem_cons_of_mem _ h2)
        exact ih hm2 q l h j hj

/-- One title check preserves soundness and either keeps or clears the
accumulator, provided the accumulator occurs on the current page and the
checked pair comes from the title list. -/
theorem checkTitle_sound {pdf : List (List Str)} {toc : List Str} {ep p idx : Nat}
    {t : Str} {s : ScanState}
    (hscrap : s.scrap <:+: pageTextOf pdf p)
    (hm : SoundMap pdf toc s.pages)
    (ht : toc[idx]? = some t) :
    SoundMap pdf toc (checkTitle ep p s idx t).pages ∧
    ((checkTitle ep p s idx t).scrap = s.scrap ∨ (checkTitle ep p s idx t).scrap = []) := by
  unfold checkTitle
  split
  · next hmatch =>
    split
    · exact ⟨hm, Or.inr rfl⟩
    · exact ⟨pushIndex_sound ⟨t, ht, hmatch.trans hscrap⟩ s.pages hm, Or.inr rfl⟩
  · exact ⟨hm, Or.inl rfl⟩

/-- A title pass preserves soundness and either keeps or clears the
accumulator. -/
theorem foldl_checkTitle_sound {pdf : List (List Str)} {toc : List Str} {ep p : Nat} :
    ∀ (L : List (Nat × Str)) (s : ScanState),
      (∀ pr ∈ L, toc[pr.1]? = some pr.2) →
      s.scrap <:+: pageTextOf pdf p →
      SoundMap pdf toc s.pages →
      SoundMap pdf toc
        ((L.foldl (fun st pr => checkTitle ep p st pr.1 pr.2) s)).pages ∧
      (((L.foldl (fun st pr => checkTitle ep p st pr.1 pr.2) s)).scrap = s.scrap ∨
       ((L.foldl (fun st pr => checkTitle ep p st pr.1 pr.2) s)).scrap = []) := by
  intro L
  induction L with
  | nil => intro s _ _ hm; exact ⟨hm, Or.inl rfl⟩
  | cons pr rest ih =>
    intro s hL hscrap hm
    rw [List.foldl_cons]
    have h1 := @checkTitle_sound pdf toc ep p pr.1 pr.2 s hscrap hm
      (hL pr (List.mem_cons_self _ _))
    have hscrap1 : (checkTitle ep p s pr.1 pr.2).scrap <:+: pageTextOf pdf p := by
      rcases h1.2 with h | h
      · rw [h]; exact hscrap
      · rw [h]; exact ⟨[], pageTextOf pdf p, by simp⟩
    have h2 := ih (checkTitle ep p s pr.1 pr.2)
      (fun q hq => hL q (List.mem_cons_of_mem _ hq)) hscrap1 h1.1
    refine ⟨h2.1, ?_⟩
    rcases h2.2 with h3 | h3
    · rcases h1.2 with h4 | h4
      · rw [h3, h4]; exact Or.inl rfl
      · rw [h3, h4]; exact Or.inr rfl
    · exact Or.inr h3

/-- The item loop of one page preserves soundness: `T` is the processed
text already consumed, the accumulator is always a suffix of it, and the
consumed text plus the remaining items make up the page's full processed
text. -/
theorem foldl_processItem_sound {pdf : List (List Str)} {toc : List Str} {ep p : Nat} :
    ∀ (items : List Str) (T : Str) (s : ScanState),
      T ++ pageText items = pageTextOf pdf p →
      s.scrap <:+ T →
      SoundMap pdf toc s.pages →
      SoundMap pdf toc ((items.foldl (processItem ep p toc) s)).pages := by
  intro items
  induction items with
  | nil => intro T s _ _ hm; exact hm
  | cons it rest ih =>
    intro T s hT hsuf hm
    rw [List.foldl_cons]
    have hsuf2 : (s.scrap ++ removeFirstNewline it) <:+ (T ++ removeFirstNewline it) := by
      obtain ⟨pre, rfl⟩ := hsuf
      exact ⟨pre, by rw [List.append_assoc]⟩
    have hT2 : (T ++ removeFirstNewline it) ++ pageText rest = pageTextOf pdf p := by
      rw [← hT, pageText, List.append_assoc]
    have hscrap2 : (s.scrap ++ removeFirstNewline it) <:+: pageTextOf pdf p :=
      infix_of_suffix_of_append hsuf2 hT2
    have hstep := @foldl_checkTitle_sound pdf toc ep p toc.enum
      { s with scrap := s.scrap ++ removeFirstNewline it }
      (fun pr hpr => List.mem_enum_iff_getElem?.mp hpr) hscrap2 hm
    have hstate : processItem ep p toc s it
        = toc.enum.foldl (fun st pr => checkTitle ep p st pr.1 pr.2)
          { s with scrap := s.scrap ++ removeFirstNewline it } := rfl
    apply ih (T ++ removeFirstNewline it) (processItem ep p toc s it) hT2 ?_ ?_
    · rw [hstate]
      rcases hstep.2 with h | h
      · rw [h]; exact hsuf2
      · rw [h]; exact ⟨T ++ removeFirstNewline it, by simp⟩
    · rw [hstate]; exact hstep.1

/-- A full page scan preserves soundness when the scanned items are the
page's items. -/
theorem processPage_sound {pdf : List (List Str)} {toc : List Str} {ep : Nat}
    (acc : List Str × List (Nat × List Nat)) (pageNb : Nat) (items : List Str)
    (hpage : pageText items = pageTextOf pdf pageNb)
    (hm : SoundMap pdf toc acc.2) :
    SoundMap pdf toc (processPage ep toc acc pageNb items).2 := by
  unfold processPage
  exact foldl_processItem_sound items [] ⟨[], acc.1, acc.2⟩ (by simpa using hpage)
    ⟨[], rfl⟩ hm

/-- The page loop preserves soundness when every visited pair is a real
page of the PDF at its position. -/
theorem foldl_processPage_sound {pdf : List (List Str)} {toc : List Str} {ep : Nat} :
    ∀ (L : List (Nat × List Str)) (acc : List Str × List (Nat × List Nat)),
      (∀ pr ∈ L, pdf[pr.1]? = some pr.2) →
      SoundMap pdf toc acc.2 →
      SoundMap pdf toc
        ((L.foldl (fun acc2 p => processPage ep toc acc2 (p.1 + 1) p.2) acc)).2 := by
  intro L
  induction L with
  | nil => intro acc _ hm; exact hm
  | cons pr rest ih =>
    intro acc hL hm
    rw [List.foldl_cons]
    have hget : pdf[pr.1]? = some pr.2 := hL pr (List.mem_cons_self _ _)
    have hpage : pageText pr.2 = pageTextOf pdf (pr.1 + 1) := by
      unfold pageTextOf
      rw [Nat.add_sub_cancel, List.getD_eq_getElem?_getD, hget]
      rfl
    exact ih (processPage ep toc acc (pr.1 + 1) pr.2)
      (fun q hq => hL q (List.mem_cons_of_mem _ hq))
      (processPage_sound acc (pr.1 + 1) pr.2 hpage hm)

/-- C1 (amended): an index may be assigned to several pages — the scan
never marks an index as done, so a title recurring on a later page is
assigned again (see the counterexample) — but every assignment is sound:
an index pushed for page `p` names an existing TOC title whose text occurs
in page `p`'s concatenated item text with embedded newline removal applied
(the first newline of each item, as `replace("\n", "")` does). -/
theorem find_page_number_sound (pdf : List (List Str)) (toc : List Str) (ep : Nat)
    (p : Nat) (l : List Nat) (idx : Nat)
    (hmem : (p, l) ∈ find_page_number pdf toc ep) (hidx : idx ∈ l) :
    ∃ t, toc[idx]? = some t ∧ t <:+: pageTextOf pdf p := by
  have h := @foldl_processPage_sound pdf toc ep (pdf.enum.drop 2) ([], [])
    (fun pr hpr => List.mem_enum_iff_getElem?.mp (List.drop_subset _ _ hpr))
    (fun q l2 hql => absurd hql (List.not_mem_nil _))
  exact h p l hmem idx hidx

/-- Witness for the amended C1: in the Scenario A run, index 0 is pushed
for page 3, and indeed the title "Introduction" occurs in page 3's
processed text. -/
theorem find_page_number_sound_witness :
    ∃ t, scenarioToc[0]? = some t ∧ t <:+: pageTextOf scenarioA_pdf 3 :=
  find_page_number_sound scenarioA_pdf scenarioToc 0 3 [0] 0 (by decide) (by decide)

end ReportConversion
